import Mathlib

/-
  Shallow embedding of `src/app/view/renderLayer.ts` (class `RenderLayer`) from
  the 3DuF repository.

  The JavaScript object `this.features` (string-keyed object mapping feature ids
  to `Feature` references) is modelled as an association list in insertion
  order, which matches the `for ... in` iteration order used by the class.
  Assigning to an existing key keeps the entry position (JS object semantics),
  assigning a fresh key appends, and `delete` removes the entry.

  Methods that `throw` are modelled as `Except Err` computations; the three
  throw sites of the class correspond to the three error kinds named by the
  specification (`InvalidArgument`, `NotFound`, `MalformedInput`).  Returning
  `Except.error` leaves no mutated state behind, matching the fact that each
  throwing method of the class throws before any mutation.

  `Feature`, `EdgeFeature` and `Layer` are external collaborators that are not
  part of the provided source; they are modelled from the spec (see the doc
  comments below).  `uuid.v1()` (the ambient id generator) is modelled by
  passing the freshly generated id as an explicit argument `fresh`.
-/

set_option linter.unusedVariables false

/-- Modelled from the spec: `PhysicalLayer` is an "opaque reference type; store
only holds and forwards it, never inspects its contents". -/
structure Layer where
  tag : Nat
deriving DecidableEq, Repr

/-- Interchange-v1 encoding of a single feature (`FeatureInterchangeV0` in the
source's imports).  Modelled from the spec: it must carry the feature's unique
id; the remaining geometry payload is opaque to the store and kept abstract as
one field. -/
structure FeatureInterchangeV0 where
  id : String
  data : String
deriving DecidableEq, Repr

/-- Legacy-JSON encoding of a single feature.  Modelled from the spec: opaque
payload with the feature's id. -/
structure FeatureJSON where
  id : String
  data : String
deriving DecidableEq, Repr

/-- Modelled from the spec: a `Feature` "must expose a unique `id`, a settable
back-reference to a physical layer, `toJSON()`, `toInterchangeV1()`, and static
factories `fromJSON(json)` / `fromInterchangeV1(json)`".  The field names `ID`
and `layer` are the ones the source reads and writes (`feature.ID`,
`feature.layer`); the geometry payload is opaque and kept abstract as `data`. -/
structure Feature where
  ID : String
  data : String
  layer : Option Layer
deriving DecidableEq, Repr

/-- Modelled from the spec: the feature's own interchange serializer. -/
def Feature.toInterchangeV1 (f : Feature) : FeatureInterchangeV0 :=
  { id := f.ID, data := f.data }

/-- Modelled from the spec: the feature-type's own interchange deserializer
(static factory); a freshly built feature has no physical-layer back-reference
yet. -/
def Feature.fromInterchangeV1 (json : FeatureInterchangeV0) : Feature :=
  { ID := json.id, data := json.data, layer := none }

/-- Modelled from the spec: the feature's legacy JSON serializer. -/
def Feature.toJSON (f : Feature) : FeatureJSON :=
  { id := f.ID, data := f.data }

/-- Modelled from the spec: the feature-type's legacy JSON deserializer
(static factory). -/
def Feature.fromJSON (json : FeatureJSON) : Feature :=
  { ID := json.id, data := json.data, layer := none }

/-- A dynamically-typed JavaScript value as far as the guard
`__ensureIsAFeature` can distinguish it: an instance of `Feature`, an instance
of `EdgeFeature` (modelled from the spec as a second feature variant with the
same capability set), or a non-feature value such as a bare string. -/
inductive JSVal where
  | feat (f : Feature)
  | edge (f : Feature)
  | str (s : String)
deriving DecidableEq, Repr

/-- The underlying feature of a value satisfying the feature capability set. -/
def JSVal.asFeature : JSVal → Option Feature
  | JSVal.feat f => some f
  | JSVal.edge f => some f
  | JSVal.str _ => none

/-- Whether a value satisfies the feature capability set
(`instanceof Feature || instanceof EdgeFeature`). -/
def JSVal.isAFeature (v : JSVal) : Bool :=
  (v.asFeature).isSome

/-- The error kinds of the specification, one per throw site of the class. -/
inductive Err where
  | invalidArgument
  | notFound
  | malformedInput
deriving DecidableEq, Repr

/-! ### The string-keyed object `this.features`, as an association list -/

/-- JS object property write `m[k] = v`: overwrite in place if the key is
present, append otherwise. -/
def insertFS (m : List (String × Feature)) (k : String) (v : Feature) :
    List (String × Feature) :=
  match m with
  | [] => [(k, v)]
  | (k', v') :: rest =>
    if k' = k then (k, v) :: rest else (k', v') :: insertFS rest k v

/-- JS object property read `m[k]`, `undefined` modelled as `none`. -/
def lookupFS (m : List (String × Feature)) (k : String) : Option Feature :=
  match m with
  | [] => none
  | (k', v') :: rest => if k' = k then some v' else lookupFS rest k

/-- JS `delete m[k]`: removes the entry with key `k` (the first one; keys are
unique in every state the class builds). -/
def eraseFS (m : List (String × Feature)) (k : String) :
    List (String × Feature) :=
  match m with
  | [] => []
  | (k', v') :: rest => if k' = k then rest else (k', v') :: eraseFS rest k

/-- JS `m.hasOwnProperty(k)`. -/
def containsKeyFS (m : List (String × Feature)) (k : String) : Bool :=
  m.any (fun p => decide (p.1 = k))

/-- Key uniqueness, an invariant of every features object the class builds. -/
def nodupKeys (m : List (String × Feature)) : Prop :=
  (m.map Prod.fst).Nodup

instance (m : List (String × Feature)) : Decidable (nodupKeys m) := by
  unfold nodupKeys
  infer_instance

/-! ### The class `RenderLayer` -/

structure RenderLayer where
  features : List (String × Feature)
  featureCount : Int
  color : Option String
  id : String
  type : String
  name : String
  physicalLayer : Option Layer
deriving DecidableEq, Repr

/-- The interchange-v1 encoding of a layer (`RenderLayerInterchangeV1` in the
source's imports), with the fields `toInterchangeV1` writes. -/
structure RenderLayerInterchangeV1 where
  id : String
  type : String
  group : String
  features : List FeatureInterchangeV0
  color : Option String
deriving DecidableEq, Repr

/-- The legacy-JSON input shape consumed by `RenderLayer.fromJSON`: a `type`
tag, an optional `features` mapping from ids to legacy feature JSON
(`none` models a JSON object without a `features` property), and an optional
`color`. -/
structure LegacyLayerJSON where
  type : String
  features : Option (List (String × FeatureJSON))
  color : Option String
deriving DecidableEq, Repr

/-- JS truthiness of a `string | undefined` value: `undefined` and the empty
string are falsy. -/
def truthy : Option String → Bool
  | none => false
  | some s => decide (s ≠ "")

/-- The constructor
`constructor(name = "New Layer", type = "FLOW", group = "0")`.
The generated id `uuid.v1()` is passed in as `fresh`.  Note that the `group`
parameter is accepted but never stored: the class has no group field. -/
def RenderLayer.create (fresh name type group : String) : RenderLayer :=
  { features := []
    featureCount := 0
    color := none
    id := fresh
    type := type
    name := name
    physicalLayer := none }

/-- `__ensureIsAFeature`: throws unless the argument is an instance of
`Feature` or `EdgeFeature`. -/
def RenderLayer.__ensureIsAFeature (v : JSVal) : Except Err Unit :=
  match v with
  | JSVal.feat _ => Except.ok ()
  | JSVal.edge _ => Except.ok ()
  | JSVal.str _ => Except.error Err.invalidArgument

/-- The body of `addFeature` after its guard has passed:
`this.features[feature.ID] = feature; this.featureCount += 1;
feature.layer = this.physicalLayer;`.  The stored reference and the argument
are the same JS object, so mutating `feature.layer` after insertion is the
same as inserting the feature with its `layer` field already updated. -/
def RenderLayer.addFeatureOk (l : RenderLayer) (f : Feature) : RenderLayer :=
  { l with
    features := insertFS l.features f.ID { f with layer := l.physicalLayer }
    featureCount := l.featureCount + 1 }

/-- `addFeature(feature)`: guard with `__ensureIsAFeature`, then insert. -/
def RenderLayer.addFeature (l : RenderLayer) (v : JSVal) :
    Except Err RenderLayer :=
  match RenderLayer.__ensureIsAFeature v with
  | Except.error e => Except.error e
  | Except.ok _ =>
    match v.asFeature with
    | some f => Except.ok (l.addFeatureOk f)
    | none => Except.error Err.invalidArgument

/-- `containsFeatureID(featureID)`: `hasOwnProperty`, no validation. -/
def RenderLayer.containsFeatureID (l : RenderLayer) (featureID : String) :
    Bool :=
  containsKeyFS l.features featureID

/-- `containsFeature(feature)`: validates the capability set, then checks for
an entry under the feature's id. -/
def RenderLayer.containsFeature (l : RenderLayer) (v : JSVal) :
    Except Err Bool :=
  match RenderLayer.__ensureIsAFeature v with
  | Except.error e => Except.error e
  | Except.ok _ =>
    match v.asFeature with
    | some f => Except.ok (l.containsFeatureID f.ID)
    | none => Except.error Err.invalidArgument

/-- `__ensureFeatureIDExists(featureID)`: throws when no entry exists. -/
def RenderLayer.__ensureFeatureIDExists (l : RenderLayer) (featureID : String) :
    Except Err Unit :=
  if l.containsFeatureID featureID then Except.ok ()
  else Except.error Err.notFound

/-- `getFeature(featureID)`: guard, then return the stored reference. -/
def RenderLayer.getFeature (l : RenderLayer) (featureID : String) :
    Except Err Feature :=
  match l.__ensureFeatureIDExists featureID with
  | Except.error e => Except.error e
  | Except.ok _ =>
    match lookupFS l.features featureID with
    | some f => Except.ok f
    | none => Except.error Err.notFound

/-- `removeFeatureByID(featureID)`: guard, then decrement the count and delete
the entry. -/
def RenderLayer.removeFeatureByID (l : RenderLayer) (featureID : String) :
    Except Err RenderLayer :=
  match l.__ensureFeatureIDExists featureID with
  | Except.error e => Except.error e
  | Except.ok _ =>
    Except.ok
      { l with
        featureCount := l.featureCount - 1
        features := eraseFS l.features featureID }

/-- `removeFeature(feature)` delegates to `removeFeatureByID(feature.ID)`. -/
def RenderLayer.removeFeature (l : RenderLayer) (f : Feature) :
    Except Err RenderLayer :=
  l.removeFeatureByID f.ID

/-- `getAllFeaturesFromLayer()`: returns the live mapping. -/
def RenderLayer.getAllFeaturesFromLayer (l : RenderLayer) :
    List (String × Feature) :=
  l.features

/-- `__featuresInterchangeV1()`: push `toInterchangeV1()` of every stored
feature, in iteration order. -/
def RenderLayer.__featuresInterchangeV1 (l : RenderLayer) :
    List FeatureInterchangeV0 :=
  l.features.map (fun p => Feature.toInterchangeV1 p.2)

/-- `__loadFeaturesFromJSON(json)`: `addFeature(Feature.fromJSON(json[i]))` for
every entry of the mapping (the mapping's keys are ignored; the entry is stored
under the deserialized feature's own id).  The `addFeature` guard always passes
here because `Feature.fromJSON` returns a feature, so the loop is the fold of
the unguarded insertion. -/
def RenderLayer.__loadFeaturesFromJSON (l : RenderLayer)
    (json : List (String × FeatureJSON)) : RenderLayer :=
  json.foldl (fun acc p => acc.addFeatureOk (Feature.fromJSON p.2)) l

/-- `__loadFeaturesFromInterchangeV1(json)`:
`addFeature(Feature.fromInterchangeV1(json[i]))` for every element of the
array.  As above, the guard always passes. -/
def RenderLayer.__loadFeaturesFromInterchangeV1 (l : RenderLayer)
    (json : List FeatureInterchangeV0) : RenderLayer :=
  json.foldl (fun acc j => acc.addFeatureOk (Feature.fromInterchangeV1 j)) l

/-- `toInterchangeV1()`: note the literal `group: "0"`. -/
def RenderLayer.toInterchangeV1 (l : RenderLayer) : RenderLayerInterchangeV1 :=
  { id := l.id
    type := l.type
    group := "0"
    features := l.__featuresInterchangeV1
    color := l.color }

/-- `static fromJSON(json)`: requires a `features` property, then
`new RenderLayer(json.type)` — a single argument, so `json.type` lands in the
constructor's `name` parameter and `type`/`group` take their defaults
`"FLOW"`/`"0"` — then loads the features and sets `color` when
`json.color` is truthy. -/
def RenderLayer.fromJSON (fresh : String) (json : LegacyLayerJSON) :
    Except Err RenderLayer :=
  match json.features with
  | none => Except.error Err.malformedInput
  | some fs =>
    let newLayer := RenderLayer.create fresh json.type "FLOW" "0"
    let newLayer := newLayer.__loadFeaturesFromJSON fs
    let newLayer :=
      if truthy json.color then { newLayer with color := json.color }
      else newLayer
    Except.ok newLayer

/-- `static fromInterchangeV1(json)`:
`new RenderLayer(json.type, json.group)` — two arguments, so `json.type` lands
in the constructor's `name` parameter, `json.group` in its `type` parameter,
and `group` takes its default `"0"` — then loads the features and sets `color`
when `json.color` is truthy. -/
def RenderLayer.fromInterchangeV1 (fresh : String)
    (json : RenderLayerInterchangeV1) : RenderLayer :=
  let newLayer := RenderLayer.create fresh json.type json.group "0"
  let newLayer := newLayer.__loadFeaturesFromInterchangeV1 json.features
  if truthy json.color then { newLayer with color := json.color }
  else newLayer

/-! ### Lemmas about the association-list model of `this.features` -/

theorem lookupFS_isSome_eq_containsKeyFS (m : List (String × Feature))
    (k : String) : (lookupFS m k).isSome = containsKeyFS m k := by
  induction m with
  | nil => rfl
  | cons p rest ih =>
    obtain ⟨k', v'⟩ := p
    by_cases h : k' = k
    · simp [lookupFS, containsKeyFS, h]
    · simpa [lookupFS, containsKeyFS, h] using ih

theorem lookupFS_eq_none_iff (m : List (String × Feature)) (k : String) :
    lookupFS m k = none ↔ containsKeyFS m k = false := by
  rw [← lookupFS_isSome_eq_containsKeyFS]
  cases lookupFS m k <;> simp

theorem containsKeyFS_eq_true_iff_mem (m : List (String × Feature))
    (k : String) : containsKeyFS m k = true ↔ k ∈ m.map Prod.fst := by
  simp [containsKeyFS, List.any_eq_true, List.mem_map]

theorem lookupFS_insertFS_self (m : List (String × Feature)) (k : String)
    (v : Feature) : lookupFS (insertFS m k v) k = some v := by
  induction m with
  | nil => simp [insertFS, lookupFS]
  | cons p rest ih =>
    obtain ⟨k', v'⟩ := p
    by_cases h : k' = k
    · simp [insertFS, lookupFS, h]
    · simp [insertFS, lookupFS, h, ih]

theorem containsKeyFS_insertFS_self (m : List (String × Feature)) (k : String)
    (v : Feature) : containsKeyFS (insertFS m k v) k = true := by
  rw [← lookupFS_isSome_eq_containsKeyFS, lookupFS_insertFS_self]
  rfl

theorem mem_map_fst_insertFS (m : List (String × Feature)) (k : String)
    (v : Feature) (x : String) :
    x ∈ (insertFS m k v).map Prod.fst ↔ x = k ∨ x ∈ m.map Prod.fst := by
  induction m with
  | nil => simp [insertFS]
  | cons p rest ih =>
    obtain ⟨k', v'⟩ := p
    by_cases h : k' = k
    · subst h
      simp [insertFS]
    · simp [insertFS, h, ih]
      tauto

theorem nodupKeys_insertFS (m : List (String × Feature)) (k : String)
    (v : Feature) (hnd : nodupKeys m) : nodupKeys (insertFS m k v) := by
  induction m with
  | nil => simp [insertFS, nodupKeys]
  | cons p rest ih =>
    obtain ⟨k', v'⟩ := p
    rw [nodupKeys, List.map_cons, List.nodup_cons] at hnd
    by_cases h : k' = k
    · subst h
      rw [nodupKeys]
      simpa [insertFS, List.nodup_cons] using hnd
    · have ih' := ih hnd.2
      rw [nodupKeys] at ih' ⊢
      simp only [insertFS, h, if_false, List.map_cons, List.nodup_cons]
      refine ⟨?_, ih'⟩
      intro hmem
      rcases (mem_map_fst_insertFS rest k v k').mp hmem with he | hm
      · exact h he
      · exact hnd.1 hm

theorem insertFS_append_of_not_contains (m : List (String × Feature))
    (k : String) (v : Feature) (h : containsKeyFS m k = false) :
    insertFS m k v = m ++ [(k, v)] := by
  induction m with
  | nil => rfl
  | cons p rest ih =>
    obtain ⟨k', v'⟩ := p
    rw [containsKeyFS, List.any_cons, Bool.or_eq_false_iff] at h
    have hk : ¬k' = k := by simpa using h.1
    simp [insertFS, hk, ih h.2]

theorem length_insertFS (m : List (String × Feature)) (k : String)
    (v : Feature) :
    (insertFS m k v).length =
      if containsKeyFS m k then m.length else m.length + 1 := by
  induction m with
  | nil => simp [insertFS, containsKeyFS]
  | cons p rest ih =>
    obtain ⟨k', v'⟩ := p
    by_cases h : k' = k
    · simp [insertFS, containsKeyFS, h]
    · rw [insertFS, if_neg h, List.length_cons, ih]
      have hcons : containsKeyFS ((k', v') :: rest) k = containsKeyFS rest k := by
        simp [containsKeyFS, List.any_cons, h]
      rw [hcons]
      by_cases hc : containsKeyFS rest k = true
      · rw [if_pos hc, if_pos hc, List.length_cons]
      · rw [if_neg hc, if_neg hc, List.length_cons]

theorem length_eraseFS (m : List (String × Feature)) (k : String)
    (h : containsKeyFS m k = true) : (eraseFS m k).length + 1 = m.length := by
  induction m with
  | nil => simp [containsKeyFS] at h
  | cons p rest ih =>
    obtain ⟨k', v'⟩ := p
    by_cases hk : k' = k
    · simp [eraseFS, hk]
    · rw [containsKeyFS, List.any_cons, Bool.or_eq_true_iff] at h
      rcases h with h | h
      · exact absurd (of_decide_eq_true h) hk
      · simp [eraseFS, hk, ih h]

theorem lookupFS_eraseFS_self (m : List (String × Feature)) (k : String)
    (hnd : nodupKeys m) : lookupFS (eraseFS m k) k = none := by
  induction m with
  | nil => rfl
  | cons p rest ih =>
    obtain ⟨k', v'⟩ := p
    rw [nodupKeys, List.map_cons, List.nodup_cons] at hnd
    by_cases h : k' = k
    · subst h
      rw [eraseFS]
      simp only [if_pos rfl]
      rw [lookupFS_eq_none_iff]
      by_contra hc
      have : containsKeyFS rest k' = true := by
        cases hcc : containsKeyFS rest k'
        · exact absurd hcc hc
        · rfl
      exact hnd.1 ((containsKeyFS_eq_true_iff_mem rest k').mp this)
    · simp [eraseFS, lookupFS, h, ih hnd.2]

theorem containsKeyFS_eraseFS_self (m : List (String × Feature)) (k : String)
    (hnd : nodupKeys m) : containsKeyFS (eraseFS m k) k = false := by
  rw [← lookupFS_isSome_eq_containsKeyFS, lookupFS_eraseFS_self m k hnd]
  rfl

/-! ### Lemmas about the feature-loading folds -/

theorem foldl_addFeatureOk_fields (fs : List Feature) : ∀ l : RenderLayer,
    (fs.foldl RenderLayer.addFeatureOk l).type = l.type
    ∧ (fs.foldl RenderLayer.addFeatureOk l).name = l.name
    ∧ (fs.foldl RenderLayer.addFeatureOk l).color = l.color
    ∧ (fs.foldl RenderLayer.addFeatureOk l).physicalLayer = l.physicalLayer
    ∧ (fs.foldl RenderLayer.addFeatureOk l).id = l.id := by
  induction fs with
  | nil => intro l; exact ⟨rfl, rfl, rfl, rfl, rfl⟩
  | cons f rest ih =>
    intro l
    simpa [List.foldl_cons, RenderLayer.addFeatureOk] using ih (l.addFeatureOk f)

theorem foldl_addFeatureOk_of_fresh (fs : List Feature) : ∀ l : RenderLayer,
    (∀ f ∈ fs, containsKeyFS l.features f.ID = false) →
    (fs.map Feature.ID).Nodup →
    fs.foldl RenderLayer.addFeatureOk l =
      { l with
        features := l.features ++
          fs.map (fun f => (f.ID, { f with layer := l.physicalLayer }))
        featureCount := l.featureCount + fs.length } := by
  induction fs with
  | nil =>
    intro l hfresh hnd
    simp
  | cons f rest ih =>
    intro l hfresh hnd
    rw [List.foldl_cons]
    rw [List.map_cons, List.nodup_cons] at hnd
    have hf : containsKeyFS l.features f.ID = false :=
      hfresh f (List.mem_cons_self f rest)
    have hfresh2 : ∀ g ∈ rest,
        containsKeyFS (l.addFeatureOk f).features g.ID = false := by
      intro g hg
      have h1 : containsKeyFS l.features g.ID = false :=
        hfresh g (List.mem_cons_of_mem f hg)
      have h2 : ¬f.ID = g.ID := by
        intro he
        exact hnd.1 (he ▸ List.mem_map_of_mem Feature.ID hg)
      rw [RenderLayer.addFeatureOk]
      simp only
      rw [insertFS_append_of_not_contains l.features f.ID _ hf]
      simp [containsKeyFS, List.any_append, List.any_cons] at h1 ⊢
      exact ⟨h1, fun he => h2 he⟩
    rw [ih (l.addFeatureOk f) hfresh2 hnd.2]
    rw [RenderLayer.addFeatureOk]
    simp only [List.map_cons, List.length_cons]
    rw [insertFS_append_of_not_contains l.features f.ID _ hf]
    simp [List.append_assoc]
    ring

theorem __loadFeaturesFromJSON_eq_foldl (l : RenderLayer)
    (fs : List (String × FeatureJSON)) :
    l.__loadFeaturesFromJSON fs =
      (fs.map (fun p => Feature.fromJSON p.2)).foldl RenderLayer.addFeatureOk l := by
  rw [RenderLayer.__loadFeaturesFromJSON, List.foldl_map]

theorem __loadFeaturesFromInterchangeV1_eq_foldl (l : RenderLayer)
    (fs : List FeatureInterchangeV0) :
    l.__loadFeaturesFromInterchangeV1 fs =
      (fs.map Feature.fromInterchangeV1).foldl RenderLayer.addFeatureOk l := by
  rw [RenderLayer.__loadFeaturesFromInterchangeV1, List.foldl_map]

/-! ### Characterizations of the guarded operations -/

theorem addFeature_feat_eq (s : RenderLayer) (f : Feature) :
    s.addFeature (JSVal.feat f) = Except.ok (s.addFeatureOk f) := rfl

theorem addFeature_edge_eq (s : RenderLayer) (f : Feature) :
    s.addFeature (JSVal.edge f) = Except.ok (s.addFeatureOk f) := rfl

theorem getFeature_eq (s : RenderLayer) (id : String) :
    s.getFeature id =
      match lookupFS s.features id with
      | some f => Except.ok f
      | none => Except.error Err.notFound := by
  rw [RenderLayer.getFeature, RenderLayer.__ensureFeatureIDExists,
    RenderLayer.containsFeatureID]
  cases hl : lookupFS s.features id with
  | some f =>
    have hc : containsKeyFS s.features id = true := by
      rw [← lookupFS_isSome_eq_containsKeyFS, hl]
      rfl
    rw [if_pos hc]
  | none =>
    have hc : containsKeyFS s.features id = false :=
      (lookupFS_eq_none_iff _ _).mp hl
    rw [hc]
    simp

theorem removeFeatureByID_eq (s : RenderLayer) (id : String) :
    s.removeFeatureByID id =
      (if containsKeyFS s.features id then
        Except.ok
          { s with
            featureCount := s.featureCount - 1
            features := eraseFS s.features id }
      else Except.error Err.notFound) := by
  rw [RenderLayer.removeFeatureByID, RenderLayer.__ensureFeatureIDExists,
    RenderLayer.containsFeatureID]
  by_cases hc : containsKeyFS s.features id = true
  · rw [if_pos hc, if_pos hc]
  · rw [if_neg hc, if_neg hc]

/-! ### Concrete fixtures -/

def fA : Feature := { ID := "f1", data := "circleA", layer := none }

def fB : Feature := { ID := "f2", data := "squareB", layer := none }

def sEmpty : RenderLayer := RenderLayer.create "uuid-0" "L1" "FLOW" "0"

def sA : RenderLayer := sEmpty.addFeatureOk fA

def sOverwrite : RenderLayer := sA.addFeatureOk fA

/-! ### The claims -/

/-- C4: `toInterchangeV1()` produces a record whose `group` field is the
literal string `"0"` regardless of the store's state, whose `id` and `type`
fields are the store's id and layer type, whose `features` field is the array
obtained by mapping each stored feature through its `toInterchangeV1` codec in
iteration order, and whose `color` field is the store's color. -/
theorem C4_toInterchangeV1_shape (s : RenderLayer) :
    (s.toInterchangeV1).group = "0"
    ∧ (s.toInterchangeV1).id = s.id
    ∧ (s.toInterchangeV1).type = s.type
    ∧ (s.toInterchangeV1).features
        = s.features.map (fun p => Feature.toInterchangeV1 p.2)
    ∧ (s.toInterchangeV1).color = s.color :=
  ⟨rfl, rfl, rfl, rfl, rfl⟩

/-- C8: `addFeature` on a value that does not satisfy the feature capability
set (for example a bare string) fails with `InvalidArgument`.  In the
functional model an `Except.error` result carries no modified store, so the
prior `featureCount` and `features` mapping remain in force, matching the
source, where the guard throws before any mutation. -/
theorem C8_addFeature_invalidArgument (s : RenderLayer) (v : JSVal)
    (hv : v.isAFeature = false) :
    s.addFeature v = Except.error Err.invalidArgument := by
  cases v with
  | feat f => simp [JSVal.isAFeature, JSVal.asFeature] at hv
  | edge f => simp [JSVal.isAFeature, JSVal.asFeature] at hv
  | str s1 => rfl

theorem C8_addFeature_invalidArgument_witness :
    sEmpty.addFeature (JSVal.str "f1") = Except.error Err.invalidArgument :=
  C8_addFeature_invalidArgument sEmpty (JSVal.str "f1") rfl

/-- C7: `getFeature(id)` fails with `NotFound` exactly when the store has no
entry with that id; when an entry exists it returns the value stored in the
`features` mapping (the shared reference, not a copy).  The operation is an
observer: in the model it produces no new store, matching the method, which
mutates nothing in either case. -/
theorem C7_getFeature_spec (s : RenderLayer) (id : String) :
    (s.getFeature id = Except.error Err.notFound
      ↔ lookupFS s.features id = none)
    ∧ ∀ f, lookupFS s.features id = some f → s.getFeature id = Except.ok f := by
  rw [getFeature_eq]
  cases hl : lookupFS s.features id with
  | some f =>
    refine ⟨by simp, ?_⟩
    intro f2 hf2
    injection hf2 with h
    rw [h]
  | none => simp

theorem C7_getFeature_spec_witness :
    sA.getFeature "f1" = Except.ok { ID := "f1", data := "circleA", layer := none } :=
  (C7_getFeature_spec sA "f1").2
    { ID := "f1", data := "circleA", layer := none } (by decide)

/-- C5: for every value satisfying the feature capability set (a feature or an
edge feature), `addFeature` succeeds; afterwards `containsFeature` on the same
value is `true`, `featureCount` has increased by exactly 1, the `features`
mapping holds, under the feature's id, the feature with its physical-layer
back-reference set to the store's current physical-layer reference, and the
store's own physical-layer reference is untouched. -/
theorem C5_addFeature_spec (s : RenderLayer) (v : JSVal) (f : Feature)
    (hv : v.asFeature = some f) :
    ∃ s2, s.addFeature v = Except.ok s2
      ∧ s2.containsFeature v = Except.ok true
      ∧ s2.featureCount = s.featureCount + 1
      ∧ s2.physicalLayer = s.physicalLayer
      ∧ lookupFS s2.features f.ID
          = some { f with layer := s.physicalLayer } := by
  cases v with
  | str s1 => simp [JSVal.asFeature] at hv
  | feat g =>
    simp only [JSVal.asFeature, Option.some.injEq] at hv
    subst hv
    refine ⟨s.addFeatureOk g, rfl, ?_, rfl, rfl, lookupFS_insertFS_self _ _ _⟩
    show Except.ok
        (containsKeyFS
          (insertFS s.features g.ID { g with layer := s.physicalLayer }) g.ID)
      = Except.ok true
    rw [containsKeyFS_insertFS_self]
  | edge g =>
    simp only [JSVal.asFeature, Option.some.injEq] at hv
    subst hv
    refine ⟨s.addFeatureOk g, rfl, ?_, rfl, rfl, lookupFS_insertFS_self _ _ _⟩
    show Except.ok
        (containsKeyFS
          (insertFS s.features g.ID { g with layer := s.physicalLayer }) g.ID)
      = Except.ok true
    rw [containsKeyFS_insertFS_self]

theorem C5_addFeature_spec_witness :
    ∃ s2, sEmpty.addFeature (JSVal.feat fA) = Except.ok s2
      ∧ s2.containsFeature (JSVal.feat fA) = Except.ok true
      ∧ s2.featureCount = sEmpty.featureCount + 1
      ∧ s2.physicalLayer = sEmpty.physicalLayer
      ∧ lookupFS s2.features fA.ID
          = some { fA with layer := sEmpty.physicalLayer } :=
  C5_addFeature_spec sEmpty (JSVal.feat fA) fA rfl

/-- C1 counterexample: starting from a fresh store, adding the same feature
twice is a reachable operation sequence in which `addFeature` hits the
overwrite case; afterwards `featureCount` is `2` while the `features` mapping
has a single entry, so the claimed invariant is not preserved by `addFeature`
when the added feature's id already has an entry. -/
theorem C1_count_invariant_ctrex :
    sEmpty.addFeature (JSVal.feat fA) = Except.ok sA
    ∧ sA.addFeature (JSVal.feat fA) = Except.ok sOverwrite
    ∧ sA.featureCount = (sA.features.length : Int)
    ∧ sOverwrite.featureCount = 2
    ∧ sOverwrite.features.length = 1 :=
  ⟨rfl, rfl, by decide, by decide, by decide⟩

/-- C1 (amended): `featureCount = number of entries` is preserved by
`removeFeatureByID` and by `addFeature` when the added feature's id is not yet
present; when the id already has an entry (the overwrite case) `addFeature`
still increments `featureCount`, which then exceeds the number of entries by
one more than before. -/
theorem C1_count_invariant_amended (s : RenderLayer) (f : Feature) (id : String)
    (hinv : s.featureCount = (s.features.length : Int)) :
    (containsKeyFS s.features f.ID = false →
      (s.addFeatureOk f).featureCount
        = ((s.addFeatureOk f).features.length : Int))
    ∧ (containsKeyFS s.features f.ID = true →
      (s.addFeatureOk f).featureCount
        = ((s.addFeatureOk f).features.length : Int) + 1)
    ∧ (∀ s2, s.removeFeatureByID id = Except.ok s2 →
      s2.featureCount = (s2.features.length : Int)) := by
  refine ⟨?_, ?_, ?_⟩
  · intro h
    show s.featureCount + 1
      = ((insertFS s.features f.ID { f with layer := s.physicalLayer }).length : Int)
    rw [length_insertFS, h]
    simp [hinv]
  · intro h
    show s.featureCount + 1
      = ((insertFS s.features f.ID { f with layer := s.physicalLayer }).length : Int) + 1
    rw [length_insertFS, h]
    simp [hinv]
  · intro s2 h2
    rw [removeFeatureByID_eq] at h2
    by_cases hc : containsKeyFS s.features id = true
    · rw [if_pos hc] at h2
      injection h2 with h2
      subst h2
      show s.featureCount - 1 = ((eraseFS s.features id).length : Int)
      have hlen := length_eraseFS s.features id hc
      omega
    · rw [if_neg hc] at h2
      exact absurd h2 (by simp)

theorem C1_count_invariant_amended_witness :
    (sEmpty.addFeatureOk fA).featureCount
      = ((sEmpty.addFeatureOk fA).features.length : Int) :=
  (C1_count_invariant_amended sEmpty fA "f1" (by decide)).1 (by decide)

/-- C6: `removeFeatureByID(id)` fails with `NotFound` exactly when the store
has no entry for `id` (an `Except.error` result carries no modified store, so
the store is unchanged, matching the source, where the guard throws before any
mutation); on success the entry is removed and `featureCount` decremented by
exactly 1; and `removeFeatureByID` immediately after `addFeature` with the same
id restores `featureCount` to its value before the add and makes
`containsFeatureID` false. -/
theorem C6_removeFeatureByID_spec (s : RenderLayer) (id : String) (f : Feature)
    (hnd : nodupKeys s.features) :
    (s.removeFeatureByID id = Except.error Err.notFound
      ↔ lookupFS s.features id = none)
    ∧ (∀ s2, s.removeFeatureByID id = Except.ok s2 →
        lookupFS s2.features id = none
        ∧ s2.featureCount = s.featureCount - 1)
    ∧ (∀ s1 s2, s.addFeature (JSVal.feat f) = Except.ok s1 →
        s1.removeFeatureByID f.ID = Except.ok s2 →
        s2.featureCount = s.featureCount
        ∧ s2.containsFeatureID f.ID = false) := by
  refine ⟨?_, ?_, ?_⟩
  · rw [removeFeatureByID_eq, lookupFS_eq_none_iff]
    by_cases hc : containsKeyFS s.features id = true
    · rw [if_pos hc]
      simp [hc]
    · rw [if_neg hc]
      simp only [Bool.not_eq_true] at hc
      simp [hc]
  · intro s2 h2
    rw [removeFeatureByID_eq] at h2
    by_cases hc : containsKeyFS s.features id = true
    · rw [if_pos hc] at h2
      injection h2 with h2
      subst h2
      exact ⟨lookupFS_eraseFS_self s.features id hnd, rfl⟩
    · rw [if_neg hc] at h2
      exact absurd h2 (by simp)
  · intro s1 s2 h1 h2
    rw [addFeature_feat_eq] at h1
    injection h1 with h1
    subst h1
    rw [removeFeatureByID_eq] at h2
    have hc : containsKeyFS (s.addFeatureOk f).features f.ID = true := by
      show containsKeyFS
        (insertFS s.features f.ID { f with layer := s.physicalLayer }) f.ID = true
      exact containsKeyFS_insertFS_self _ _ _
    rw [if_pos hc] at h2
    injection h2 with h2
    subst h2
    constructor
    · show s.featureCount + 1 - 1 = s.featureCount
      omega
    · show containsKeyFS
        (eraseFS (s.addFeatureOk f).features f.ID) f.ID = false
      refine containsKeyFS_eraseFS_self _ _ ?_
      exact nodupKeys_insertFS s.features f.ID _ hnd

theorem C6_removeFeatureByID_spec_witness :
    sA.removeFeatureByID "zzz" = Except.error Err.notFound
      ↔ lookupFS sA.features "zzz" = none :=
  (C6_removeFeatureByID_spec sA "zzz" fB (by decide)).1

/-- C2: the interchange round-trip does not preserve `layerType`.
`fromInterchangeV1` calls the constructor with `(json.type, json.group)`, so
`json.type` lands in the `name` parameter and `json.group` in the `type`
parameter; since `toInterchangeV1` always writes `group: "0"`, the
round-tripped store's `layerType` is `"0"` and its `name` is the original
`layerType`.  Evaluated on a concrete store with `layerType = "FLOW"` and one
feature: the feature set does round-trip (same id, codec applied), but the
`layerType` does not. -/
theorem C2_roundtrip_type_bug :
    sA.type = "FLOW"
    ∧ (RenderLayer.fromInterchangeV1 "uuid-1" sA.toInterchangeV1).type = "0"
    ∧ (RenderLayer.fromInterchangeV1 "uuid-1" sA.toInterchangeV1).name = "FLOW"
    ∧ (RenderLayer.fromInterchangeV1 "uuid-1" sA.toInterchangeV1).features
        = [("f1", { ID := "f1", data := "circleA", layer := none })]
    ∧ (RenderLayer.fromInterchangeV1 "uuid-1" sA.toInterchangeV1).color
        = sA.color :=
  ⟨rfl, by decide, by decide, by decide, by decide⟩

/-- The concrete interchange record used to evaluate C3. -/
def jsonItf : RenderLayerInterchangeV1 :=
  { id := "i1"
    type := "FLOW"
    group := "7"
    features := [{ id := "f1", data := "circleA" }]
    color := some "blue" }

/-- C3: `fromInterchangeV1(json)` does not set `layerType` to `json.type`: the
constructor call `new RenderLayer(json.type, json.group)` puts `json.type`
into `name` and `json.group` into `type`.  Evaluated on a concrete record with
`type = "FLOW"` and `group = "7"`: the resulting store's `layerType` is `"7"`
and its `name` is `"FLOW"`.  The rest of the claim is visible on the same
input: the features are populated through the feature type's interchange
deserializer and color is restored when present. -/
theorem C3_fromInterchangeV1_type_bug :
    (RenderLayer.fromInterchangeV1 "uuid-2" jsonItf).type = "7"
    ∧ (RenderLayer.fromInterchangeV1 "uuid-2" jsonItf).name = "FLOW"
    ∧ jsonItf.type = "FLOW"
    ∧ (RenderLayer.fromInterchangeV1 "uuid-2" jsonItf).features
        = [("f1", { ID := "f1", data := "circleA", layer := none })]
    ∧ (RenderLayer.fromInterchangeV1 "uuid-2" jsonItf).color = some "blue" :=
  ⟨by decide, by decide, rfl, by decide, by decide⟩

/-- C9: `fromJSON(json)` fails with `MalformedInput` exactly when the input
has no `features` property.  On success it builds the features by applying the
feature type's legacy JSON deserializer to each entry of the `json.features`
mapping (stored under the deserialized feature's own id; stated here for
inputs whose deserialized ids are pairwise distinct, which is the only case in
which the mapping determines a function), and it sets `color` from
`json.color` only when `json.color` is present: the color can only be a value
that was present in the input, and an absent `json.color` leaves the color
unset. -/
theorem C9_fromJSON_spec (fresh : String) (json : LegacyLayerJSON) :
    (RenderLayer.fromJSON fresh json = Except.error Err.malformedInput
      ↔ json.features = none)
    ∧ (∀ fs, json.features = some fs →
        (fs.map (fun p => (Feature.fromJSON p.2).ID)).Nodup →
        ∃ l, RenderLayer.fromJSON fresh json = Except.ok l
          ∧ l.features
              = fs.map (fun p => ((Feature.fromJSON p.2).ID, Feature.fromJSON p.2))
          ∧ (json.color = none → l.color = none)
          ∧ (∀ c, l.color = some c → json.color = some c)) := by
  constructor
  · cases hjf : json.features with
    | none => simp [RenderLayer.fromJSON, hjf]
    | some fs => simp [RenderLayer.fromJSON, hjf]
  · intro fs hjf hnd
    simp only [RenderLayer.fromJSON, hjf]
    have hL := foldl_addFeatureOk_of_fresh (fs.map fun p => Feature.fromJSON p.2)
      (RenderLayer.create fresh json.type "FLOW" "0")
      (by intro g hg; rfl)
      (by simpa [List.map_map, Function.comp] using hnd)
    have hfeat :
        ((RenderLayer.create fresh json.type "FLOW" "0").__loadFeaturesFromJSON fs).features
          = fs.map (fun p => ((Feature.fromJSON p.2).ID, Feature.fromJSON p.2)) := by
      rw [__loadFeaturesFromJSON_eq_foldl, hL]
      simp [Feature.fromJSON, RenderLayer.create, List.map_map, Function.comp]
    have hcol :
        ((RenderLayer.create fresh json.type "FLOW" "0").__loadFeaturesFromJSON fs).color
          = none := by
      rw [__loadFeaturesFromJSON_eq_foldl]
      exact (foldl_addFeatureOk_fields _ _).2.2.1
    by_cases hco : truthy json.color = true
    · rw [if_pos hco]
      refine ⟨_, rfl, hfeat, ?_, ?_⟩
      · intro hnone
        rw [hnone] at hco
        exact absurd hco (by simp [truthy])
      · intro c hc2
        exact hc2
    · rw [if_neg hco]
      refine ⟨_, rfl, hfeat, ?_, ?_⟩
      · intro _
        exact hcol
      · intro c hc2
        rw [hcol] at hc2
        exact absurd hc2 (by simp)

/-- The concrete legacy-JSON record used in the witnesses for C9 and C10. -/
def jsonLegacy : LegacyLayerJSON :=
  { type := "CONTROL"
    features := some [("k1", { id := "f1", data := "circleA" })]
    color := some "red" }

theorem C9_fromJSON_spec_witness :
    ∃ l, RenderLayer.fromJSON "uuid-3" jsonLegacy = Except.ok l
      ∧ l.features = [("f1", { ID := "f1", data := "circleA", layer := none })]
      ∧ (jsonLegacy.color = none → l.color = none)
      ∧ (∀ c, l.color = some c → jsonLegacy.color = some c) :=
  (C9_fromJSON_spec "uuid-3" jsonLegacy).2
    [("k1", { id := "f1", data := "circleA" })] rfl (by decide)

/-- C10: for every legacy-JSON input with a `features` property, `fromJSON`
passes `json.type` as the constructor's `name` argument, so the resulting
store's `layerType` is the default `"FLOW"` regardless of `json.type`, and its
`name` equals `json.type`. -/
theorem C10_fromJSON_type_default (fresh : String) (json : LegacyLayerJSON)
    (fs : List (String × FeatureJSON)) (hjf : json.features = some fs) :
    ∃ l, RenderLayer.fromJSON fresh json = Except.ok l
      ∧ l.type = "FLOW" ∧ l.name = json.type := by
  simp only [RenderLayer.fromJSON, hjf]
  have h1 :
      ((RenderLayer.create fresh json.type "FLOW" "0").__loadFeaturesFromJSON fs).type
        = "FLOW" := by
    rw [__loadFeaturesFromJSON_eq_foldl]
    exact (foldl_addFeatureOk_fields _ _).1
  have h2 :
      ((RenderLayer.create fresh json.type "FLOW" "0").__loadFeaturesFromJSON fs).name
        = json.type := by
    rw [__loadFeaturesFromJSON_eq_foldl]
    exact (foldl_addFeatureOk_fields _ _).2.1
  by_cases hco : truthy json.color = true
  · rw [if_pos hco]
    exact ⟨_, rfl, h1, h2⟩
  · rw [if_neg hco]
    exact ⟨_, rfl, h1, h2⟩

theorem C10_fromJSON_type_default_witness :
    ∃ l, RenderLayer.fromJSON "uuid-4" jsonLegacy = Except.ok l
      ∧ l.type = "FLOW" ∧ l.name = "CONTROL" :=
  C10_fromJSON_type_default "uuid-4" jsonLegacy
    [("k1", { id := "f1", data := "circleA" })] rfl
